import Mathlib

/-!
Verification of the draw-batching subsystem (`batch.go`) of the pixel 2D
rendering library.

The file `batch.go` is embedded directly, definition by definition.  The
helper types it uses (`TrianglesData`, `Matrix`, `RGBA`, `Drawer`, the
`Triangles` buffer operations) live in files of the same repository that are
not among the reviewed sources; those are modelled from the specification, as
marked in their doc comments.  Go mutation is rendered as explicit state
passing and Go panics as `Option`/`Except` failure.  Pointer identity of
`*Batch` and of `Picture` handles is modelled by natural-number identifiers.
Numeric fields use `ℚ` in place of `float64` (none of the checked properties
depends on rounding).

A second, store-based rendering of the proxy operations near the end of the
file models Go's pointer/slice aliasing explicitly (a heap of buffers plus
offset/length views, following the spec's own view model in §9); it is used
to state that proxy operations never write the caller's original buffer.
-/

namespace Pixel

/-- Modelled from the spec: a 2D point (vertex position or texture
coordinate). -/
structure Vec where
  x : ℚ
  y : ℚ
deriving DecidableEq

/-- Modelled from the spec: a 4-component float color. -/
structure RGBA where
  r : ℚ
  g : ℚ
  b : ℚ
  a : ℚ
deriving DecidableEq

/-- Modelled from the spec: color masking multiplies component-wise
(`RGBA.Mul`). -/
def RGBA.mul (c d : RGBA) : RGBA :=
  { r := c.r * d.r, g := c.g * d.g, b := c.b * d.b, a := c.a * d.a }

/-- Modelled from the spec: color-space conversion helpers are out of scope
(§1); on a value that is already an `RGBA` the conversion `ToRGBA` is the
identity. -/
def ToRGBA (c : RGBA) : RGBA := c

/-- Modelled from the spec: a "3x3-equivalent affine matrix", stored as its
six meaningful entries: linear part `a b c d`, translation `e f`. -/
structure Matrix where
  a : ℚ
  b : ℚ
  c : ℚ
  d : ℚ
  e : ℚ
  f : ℚ
deriving DecidableEq

/-- Modelled from the spec: affine projection of a point (homogeneous
transform then de-homogenize; for an affine matrix that is the
linear-plus-translation action below). -/
def Matrix.project (m : Matrix) (u : Vec) : Vec :=
  { x := m.a * u.x + m.c * u.y + m.e, y := m.b * u.x + m.d * u.y + m.f }

/-- The zero matrix (the Go zero value of a `Matrix` field). -/
def Matrix.zero : Matrix := { a := 0, b := 0, c := 0, d := 0, e := 0, f := 0 }

/-- The zero color (the Go zero value of an `RGBA` field). -/
def RGBA.zero : RGBA := { r := 0, g := 0, b := 0, a := 0 }

/-- `IM`, the identity matrix. -/
def IM : Matrix := { a := 1, b := 0, c := 0, d := 1, e := 0, f := 0 }

/-- Modelled from the spec: a vertex carries a position, a color and a
texture coordinate (§3). -/
structure Vertex where
  pos : Vec
  color : RGBA
  tex : Vec
deriving DecidableEq

/-- The zero vertex (Go zero value, used when a buffer grows). -/
def Vertex.zero : Vertex :=
  { pos := { x := 0, y := 0 }, color := RGBA.zero, tex := { x := 0, y := 0 } }

/-- Modelled from the spec: the concrete geometry buffer `TrianglesData`, an
ordered resizable sequence of vertices. -/
abbrev TrianglesData := List Vertex

/-- Modelled from the spec: `SetLen` resizes a buffer, truncating or padding
with zero vertices. -/
def TrianglesData.setLen (td : TrianglesData) (n : Nat) : TrianglesData :=
  if n ≤ td.length then td.take n
  else td ++ List.replicate (n - td.length) Vertex.zero

/-- Modelled from the spec: the contents seen through the view `Slice(i, j)`
(§3: the range `[i, j)`). -/
def TrianglesData.slice (td : TrianglesData) (i j : Nat) : TrianglesData :=
  (td.drop i).take (j - i)

/-- Modelled from the spec: `Update` copies every field both buffers support
from the source vertex into the destination vertex; here the two buffers
support the same fields, so all of them are copied. -/
def Vertex.copyFields (dst src : Vertex) : Vertex :=
  { dst with pos := src.pos, color := src.color, tex := src.tex }

/-- Modelled from the spec: `Update(other)` fails if the lengths differ,
otherwise copies all supported fields vertex by vertex.  The failure (a Go
panic) is `none`. -/
def TrianglesData.update (td src : TrianglesData) : Option TrianglesData :=
  if td.length = src.length then some (List.zipWith Vertex.copyFields td src)
  else none

/-- Modelled from the spec: `Copy` produces an independent buffer with
identical contents; on an immutable list value that is the value itself. -/
def TrianglesData.copy (td : TrianglesData) : TrianglesData := td

/-- Modelled from the spec: `MakeTrianglesData(len)` allocates a buffer of
`len` zero vertices. -/
def MakeTrianglesData (n : Nat) : TrianglesData :=
  List.replicate n Vertex.zero

/-- The Go pattern `td.Slice(i, j).Update(src)`: the slice aliases `td`'s
storage (§4.1), so updating it writes the copied fields into positions
`[i, j)` of `td` and leaves the rest unchanged. -/
def TrianglesData.updateSlice (td : TrianglesData) (i j : Nat)
    (src : TrianglesData) : Option TrianglesData :=
  Option.map (fun s => td.take i ++ s ++ td.drop j)
    (TrianglesData.update (TrianglesData.slice td i j) src)

/-- Modelled from the spec: the composite drawable target (`Drawer`) couples
a geometry buffer with one image resource (an identity handle) and a dirty
flag. -/
structure Drawer where
  triangles : TrianglesData
  picture : Nat
  dirty : Bool
deriving DecidableEq

/-- Modelled from the spec: `Drawer.Dirty` marks the drawer dirty. -/
def Drawer.Dirty (d : Drawer) : Drawer := { d with dirty := true }

/-- `Batch` from `batch.go`: a container drawer plus the current matrix and
color mask.  The extra field `id` models the pointer identity of the Go
`*Batch`, used only by the `!=` comparisons in `Batch.MakePicture` and
`batchPicture.Draw`. -/
structure Batch where
  cont : Drawer
  mat : Matrix
  col : RGBA
  id : Nat
deriving DecidableEq

/-- `Batch.SetMatrix` sets the matrix every point will be projected by. -/
def Batch.SetMatrix (b : Batch) (m : Matrix) : Batch := { b with mat := m }

/-- `Batch.SetColorMask` sets the mask used in following draws onto the
batch; the argument models Go's nilable `color.Color`. -/
def Batch.SetColorMask (b : Batch) (c : Option RGBA) : Batch :=
  match c with
  | none => { b with col := { r := 1, g := 1, b := 1, a := 1 } }
  | some c0 => { b with col := ToRGBA c0 }

/-- `NewBatch` builds the batch around the container and picture (Go zero
values for `mat`/`col`), then sets the identity matrix and an opaque white
mask, exactly as the source does. -/
def NewBatch (container : TrianglesData) (pic : Nat) (id : Nat) : Batch :=
  Batch.SetColorMask
    (Batch.SetMatrix
      { cont := { triangles := container, picture := pic, dirty := false },
        mat := Matrix.zero, col := RGBA.zero, id := id }
      IM)
    (some { r := 1, g := 1, b := 1, a := 1 })

/-- `Batch.Dirty` notifies the batch of an external container change. -/
def Batch.Dirty (b : Batch) : Batch := { b with cont := Drawer.Dirty b.cont }

/-- `Batch.Clear` removes all objects: `cont.Triangles.SetLen(0)` followed by
`cont.Dirty()`. -/
def Batch.Clear (b : Batch) : Batch :=
  let cleared := { b.cont with triangles := TrianglesData.setLen b.cont.triangles 0 }
  { b with cont := Drawer.Dirty cleared }

/-- `batchTriangles`: the geometry proxy, holding the private clone `tri`,
the scratch buffer `tmp` and the owning batch pointer `dst` (as the batch's
identity). -/
structure batchTriangles where
  tri : TrianglesData
  tmp : TrianglesData
  dst : Nat
deriving DecidableEq

/-- `batchPicture`: the image proxy, holding the picture handle and the
owning batch pointer `dst`. -/
structure batchPicture where
  pic : Nat
  dst : Nat
deriving DecidableEq

/-- `Batch.MakeTriangles` clones the caller's triangles and allocates an
equally long scratch buffer. -/
def Batch.MakeTriangles (b : Batch) (t : TrianglesData) : batchTriangles :=
  { tri := TrianglesData.copy t,
    tmp := MakeTrianglesData (List.length t),
    dst := b.id }

/-- `Batch.MakePicture` panics (`none`) unless the picture is identical to
the batch's bound picture; otherwise it returns a proxy bound to the batch.
It reads the batch and builds a fresh proxy, touching no other state. -/
def Batch.MakePicture (b : Batch) (p : Nat) : Option batchPicture :=
  if p ≠ b.cont.picture then none
  else some { pic := p, dst := b.id }

/-- `batchTriangles.Len`. -/
def batchTriangles.Len (bt : batchTriangles) : Nat := List.length bt.tri

/-- `batchTriangles.SetLen` resizes clone and scratch in lockstep. -/
def batchTriangles.SetLen (bt : batchTriangles) (n : Nat) : batchTriangles :=
  { bt with tri := TrianglesData.setLen bt.tri n,
            tmp := TrianglesData.setLen bt.tmp n }

/-- `batchTriangles.Slice` slices clone and scratch, keeping the owner. -/
def batchTriangles.Slice (bt : batchTriangles) (i j : Nat) : batchTriangles :=
  { bt with tri := TrianglesData.slice bt.tri i j,
            tmp := TrianglesData.slice bt.tmp i j }

/-- `batchTriangles.Update` updates only the private clone `tri`; a length
mismatch panic is `none`. -/
def batchTriangles.Update (bt : batchTriangles) (t : TrianglesData) :
    Option batchTriangles :=
  Option.map (fun tri2 => { bt with tri := tri2 })
    (TrianglesData.update bt.tri t)

/-- `batchTriangles.Copy` copies clone and scratch, keeping the owner. -/
def batchTriangles.Copy (bt : batchTriangles) : batchTriangles :=
  { bt with tri := TrianglesData.copy bt.tri,
            tmp := TrianglesData.copy bt.tmp }

/-- The per-vertex transformation applied in the merge loop of
`batchTriangles.draw`: project the position by the batch matrix and multiply
the color by the batch mask, leaving every other field alone. -/
def transformVertex (m : Matrix) (c : RGBA) (v : Vertex) : Vertex :=
  { v with pos := Matrix.project m v.pos, color := RGBA.mul c v.color }

/-- `batchTriangles.draw`, the merge: copy `tri` into `tmp`, transform `tmp`
in place, grow the batch container by `tri`'s length, write `tri` and then
`tmp` through the aliased tail slice, and mark the container dirty.  `b` is
the current state of the batch `bt.dst` points to; the `*batchPicture`
argument of the Go method is unused there and omitted. -/
def batchTriangles.draw (bt : batchTriangles) (b : Batch) :
    Option (Batch × batchTriangles) :=
  match TrianglesData.update bt.tmp bt.tri with
  | none => none
  | some tmp1 =>
    let tmp2 := List.map (transformVertex b.mat b.col) tmp1
    let cont := b.cont.triangles
    let contGrown :=
      TrianglesData.setLen cont (List.length cont + List.length bt.tri)
    let i := List.length contGrown - List.length bt.tri
    let j := List.length contGrown
    match TrianglesData.updateSlice contGrown i j bt.tri with
    | none => none
    | some cont2 =>
      match TrianglesData.updateSlice cont2 i j tmp2 with
      | none => none
      | some cont3 =>
        some ({ b with cont := { b.cont with triangles := cont3, dirty := true } },
              { bt with tmp := tmp2 })

/-- `batchTriangles.Draw` (the geometry proxy's public draw) calls the merge
with a nil picture proxy; the picture argument is unused by the merge, so it
is the merge itself. -/
def batchTriangles.DrawSelf (bt : batchTriangles) (b : Batch) :
    Option (Batch × batchTriangles) :=
  batchTriangles.draw bt b

/-- `TargetTriangles`: the Go interface value handed to `batchPicture.Draw`.
`proxy` is a `*batchTriangles`; `other` stands for a value of any other
dynamic type implementing the interface (the tag separates distinct
values). -/
inductive TargetTriangles where
  | proxy (bt : batchTriangles)
  | other (tag : Nat)
deriving DecidableEq

/-- The panics `batchPicture.Draw` can raise: the failed type assertion
`t.(*batchTriangles)`, the mismatched-batch panic, and a length-mismatch
panic inside the merge's buffer updates. -/
inductive DrawPanic where
  | typeAssertion
  | differentBatch
  | updateFailed
deriving DecidableEq

/-- `batchPicture.Draw`: the type assertion on the argument is evaluated
first; only then is the owning batch compared, and only then does the merge
run.  `b` is the current state of the batch `bp.dst` points to. -/
def batchPicture.Draw (bp : batchPicture) (t : TargetTriangles) (b : Batch) :
    Except DrawPanic (Batch × batchTriangles) :=
  match t with
  | .other _ => .error .typeAssertion
  | .proxy bt =>
    if bp.dst ≠ bt.dst then .error .differentBatch
    else
      match batchTriangles.draw bt b with
      | some res => .ok res
      | none => .error .updateFailed

/-! Basic lemmas about the buffer operations. -/

theorem Vertex.copyFields_eq (d s : Vertex) : Vertex.copyFields d s = s := rfl

theorem zipWith_copyFields (dst src : TrianglesData)
    (h : dst.length = src.length) :
    List.zipWith Vertex.copyFields dst src = src := by
  induction dst generalizing src with
  | nil =>
    cases src with
    | nil => rfl
    | cons s l => simp at h
  | cons d l ih =>
    cases src with
    | nil => simp at h
    | cons s m =>
      simp only [List.zipWith, Vertex.copyFields_eq, List.cons.injEq, true_and]
      exact ih m (by simpa using h)

theorem TrianglesData.update_eq_of_length (td src : TrianglesData)
    (h : td.length = src.length) :
    TrianglesData.update td src = some src := by
  simp [TrianglesData.update, h, zipWith_copyFields td src h]

theorem TrianglesData.setLen_add (td : TrianglesData) (k : Nat) :
    TrianglesData.setLen td (td.length + k) =
      td ++ List.replicate k Vertex.zero := by
  by_cases h : td.length + k ≤ td.length
  · have hk : k = 0 := by omega
    subst hk
    simp [TrianglesData.setLen]
  · simp [TrianglesData.setLen, h, Nat.add_sub_cancel_left]

theorem TrianglesData.updateSlice_append (a tail src : TrianglesData)
    (h : tail.length = src.length) :
    TrianglesData.updateSlice (a ++ tail) a.length (a.length + tail.length) src
      = some (a ++ src) := by
  have hslice : TrianglesData.slice (a ++ tail) a.length (a.length + tail.length)
      = tail := by
    simp [TrianglesData.slice, Nat.add_sub_cancel_left, List.drop_left,
      List.take_length]
  have hdrop : (a ++ tail).drop (a.length + tail.length) = [] := by
    have : a.length + tail.length = (a ++ tail).length := by simp
    rw [this, List.drop_length]
  simp [TrianglesData.updateSlice, hslice,
    TrianglesData.update_eq_of_length tail src h, List.take_left, hdrop]

/-- The merge in closed form: when scratch and clone have equal length (the
proxy invariant), `draw` succeeds, appends the transformed clone to the
container, marks it dirty, and leaves the transformed snapshot in the
scratch buffer. -/
theorem batchTriangles.draw_eq (bt : batchTriangles) (b : Batch)
    (h : bt.tmp.length = bt.tri.length) :
    batchTriangles.draw bt b =
      some ({ b with cont := { b.cont with
                triangles := b.cont.triangles ++
                  List.map (transformVertex b.mat b.col) bt.tri,
                dirty := true } },
            { bt with tmp := List.map (transformVertex b.mat b.col) bt.tri }) := by
  unfold batchTriangles.draw
  rw [TrianglesData.update_eq_of_length bt.tmp bt.tri h]
  have hgrow : TrianglesData.setLen b.cont.triangles
      (List.length b.cont.triangles + List.length bt.tri)
      = b.cont.triangles ++ List.replicate (List.length bt.tri) Vertex.zero :=
    TrianglesData.setLen_add b.cont.triangles (List.length bt.tri)
  have hlen : List.length (b.cont.triangles ++
      List.replicate (List.length bt.tri) Vertex.zero)
      = List.length b.cont.triangles + List.length bt.tri := by simp
  have hidx : List.length (b.cont.triangles ++
      List.replicate (List.length bt.tri) Vertex.zero) - List.length bt.tri
      = List.length b.cont.triangles := by simp
  have h1 : TrianglesData.updateSlice
      (b.cont.triangles ++ List.replicate (List.length bt.tri) Vertex.zero)
      (List.length b.cont.triangles)
      (List.length b.cont.triangles + List.length bt.tri) bt.tri
      = some (b.cont.triangles ++ bt.tri) := by
    have := TrianglesData.updateSlice_append b.cont.triangles
      (List.replicate (List.length bt.tri) Vertex.zero) bt.tri (by simp)
    simpa using this
  have h2 : TrianglesData.updateSlice (b.cont.triangles ++ bt.tri)
      (List.length b.cont.triangles)
      (List.length b.cont.triangles + List.length bt.tri)
      (List.map (transformVertex b.mat b.col) bt.tri)
      = some (b.cont.triangles ++
          List.map (transformVertex b.mat b.col) bt.tri) := by
    have := TrianglesData.updateSlice_append b.cont.triangles bt.tri
      (List.map (transformVertex b.mat b.col) bt.tri) (by simp)
    simpa using this
  simp only [hgrow, hlen, hidx, Nat.add_sub_cancel, h1, h2]

/-! Concrete sample values used by the witness theorems. -/

def sampleVertex : Vertex :=
  { pos := { x := 1, y := 2 },
    color := { r := 1, g := 1, b := 1, a := 1 },
    tex := { x := 3, y := 4 } }

def sampleVertex2 : Vertex :=
  { pos := { x := 5, y := 6 },
    color := { r := 1, g := 0, b := 0, a := 1 },
    tex := { x := 0, y := 1 } }

def sampleBatch : Batch :=
  { cont := { triangles := [], picture := 3, dirty := false },
    mat := IM,
    col := { r := 1, g := 1, b := 1, a := 1 },
    id := 7 }

def sampleMergedBatch : Batch :=
  { cont := { triangles := [sampleVertex], picture := 3, dirty := true },
    mat := IM,
    col := { r := 1, g := 1, b := 1, a := 1 },
    id := 7 }

def sampleMergedProxy : batchTriangles :=
  { tri := [sampleVertex], tmp := [sampleVertex], dst := 7 }

/-- The proxy length invariant of the spec: the private clone and the
scratch buffer have equal length. -/
def scratchLenInv (bt : batchTriangles) : Prop :=
  batchTriangles.Len bt = List.length bt.tmp

/-- Evaluation of the merge on the sample data (`ℚ` arithmetic does not
kernel-reduce, so this is proved through the closed form). -/
theorem sample_draw :
    batchTriangles.draw (Batch.MakeTriangles sampleBatch [sampleVertex])
        sampleBatch = some (sampleMergedBatch, sampleMergedProxy) := by
  rw [batchTriangles.draw_eq _ _
    (by simp [Batch.MakeTriangles, MakeTrianglesData, TrianglesData.copy])]
  norm_num [Batch.MakeTriangles, TrianglesData.copy, sampleBatch,
    sampleMergedBatch, sampleMergedProxy, sampleVertex, transformVertex,
    Matrix.project, RGBA.mul, IM]

theorem TrianglesData.length_setLen (td : TrianglesData) (n : Nat) :
    List.length (TrianglesData.setLen td n) = n := by
  unfold TrianglesData.setLen
  split <;> simp <;> omega

/-- C1: merging a proxy made by `Batch.MakeTriangles` from a source of
length `k` grows the batch container by exactly `k`, sets the dirty flag,
and each appended vertex carries the batch-matrix-projected position, the
mask-multiplied color, and the original texture coordinate of the source
vertex. -/
theorem c1_merge_appends_transformed (b : Batch) (t : TrianglesData) :
    ∃ b2 bt2,
      batchTriangles.draw (Batch.MakeTriangles b t) b = some (b2, bt2) ∧
      List.length b2.cont.triangles =
        List.length b.cont.triangles + List.length t ∧
      b2.cont.dirty = true ∧
      (∀ i : Nat,
        Option.map Vertex.pos b2.cont.triangles[List.length b.cont.triangles + i]? =
          Option.map (fun v => Matrix.project b.mat v.pos) t[i]? ∧
        Option.map Vertex.color b2.cont.triangles[List.length b.cont.triangles + i]? =
          Option.map (fun v => RGBA.mul b.col v.color) t[i]? ∧
        Option.map Vertex.tex b2.cont.triangles[List.length b.cont.triangles + i]? =
          Option.map Vertex.tex t[i]?) := by
  have h : ((Batch.MakeTriangles b t).tmp).length =
      ((Batch.MakeTriangles b t).tri).length := by
    simp [Batch.MakeTriangles, MakeTrianglesData, TrianglesData.copy]
  refine ⟨_, _, batchTriangles.draw_eq (Batch.MakeTriangles b t) b h, ?_, rfl, ?_⟩
  · simp [Batch.MakeTriangles, TrianglesData.copy]
  · intro i
    have happ : (b.cont.triangles ++
        List.map (transformVertex b.mat b.col) (Batch.MakeTriangles b t).tri)[
          List.length b.cont.triangles + i]? =
        (List.map (transformVertex b.mat b.col) t)[i]? := by
      rw [List.getElem?_append_right (by omega)]
      simp [Batch.MakeTriangles, TrianglesData.copy]
    refine ⟨?_, ?_, ?_⟩ <;>
      rw [happ, List.getElem?_map] <;>
      cases t[i]? <;>
      simp [transformVertex]

/-- C2: `Batch.MakePicture` fails exactly when the picture handle is not
identical to the batch's bound picture, and on the identical picture it
returns the proxy bound to the batch (touching no other state: it is a
function of the batch alone). -/
theorem c2_make_picture_identity (b : Batch) (p : Nat) :
    (p ≠ b.cont.picture → Batch.MakePicture b p = none) ∧
    (p = b.cont.picture →
      Batch.MakePicture b p = some { pic := p, dst := b.id }) := by
  constructor <;> intro h <;> simp [Batch.MakePicture, h]

theorem c2_make_picture_identity_witness :
    Batch.MakePicture sampleBatch 5 = none ∧
    Batch.MakePicture sampleBatch 3 = some { pic := 3, dst := 7 } :=
  ⟨(c2_make_picture_identity sampleBatch 5).1 (by decide),
   (c2_make_picture_identity sampleBatch 3).2 (by decide)⟩

/-- C3: the image proxy's `Draw` on a geometry proxy of a different batch
panics with the mismatched-batch error and produces no merged state, and on
a proxy of the same batch it performs exactly the merge. -/
theorem c3_draw_batch_identity (bp : batchPicture) (bt : batchTriangles)
    (b : Batch) :
    (bp.dst ≠ bt.dst →
      batchPicture.Draw bp (TargetTriangles.proxy bt) b =
        Except.error DrawPanic.differentBatch) ∧
    (bp.dst = bt.dst → ∀ res, batchTriangles.draw bt b = some res →
      batchPicture.Draw bp (TargetTriangles.proxy bt) b = Except.ok res) := by
  constructor
  · intro h
    simp [batchPicture.Draw, h]
  · intro h res hres
    simp [batchPicture.Draw, h, hres]

theorem c3_draw_batch_identity_witness :
    batchPicture.Draw { pic := 3, dst := 8 }
        (TargetTriangles.proxy (Batch.MakeTriangles sampleBatch [sampleVertex]))
        sampleBatch = Except.error DrawPanic.differentBatch ∧
    batchPicture.Draw { pic := 3, dst := 7 }
        (TargetTriangles.proxy (Batch.MakeTriangles sampleBatch [sampleVertex]))
        sampleBatch = Except.ok (sampleMergedBatch, sampleMergedProxy) :=
  ⟨(c3_draw_batch_identity { pic := 3, dst := 8 }
      (Batch.MakeTriangles sampleBatch [sampleVertex]) sampleBatch).1 (by decide),
   (c3_draw_batch_identity { pic := 3, dst := 7 }
      (Batch.MakeTriangles sampleBatch [sampleVertex]) sampleBatch).2 (by decide)
      (sampleMergedBatch, sampleMergedProxy) sample_draw⟩

/-- C4: merges bake the batch state at merge time.  Merging `A`, then
setting a new matrix `T2`, then merging `B` leaves `A`'s vertices projected
by the original matrix and `B`'s by `T2`. -/
theorem c4_non_retroactive_transform (b0 : Batch) (A B : TrianglesData)
    (T2 : Matrix) :
    ∃ r1 r2,
      batchTriangles.draw (Batch.MakeTriangles b0 A) b0 = some r1 ∧
      batchTriangles.draw (Batch.MakeTriangles (Batch.SetMatrix r1.1 T2) B)
        (Batch.SetMatrix r1.1 T2) = some r2 ∧
      r2.1.cont.triangles =
        b0.cont.triangles ++ List.map (transformVertex b0.mat b0.col) A
          ++ List.map (transformVertex T2 b0.col) B := by
  refine ⟨_, _,
    batchTriangles.draw_eq (Batch.MakeTriangles b0 A) b0
      (by simp [Batch.MakeTriangles, MakeTrianglesData, TrianglesData.copy]),
    batchTriangles.draw_eq _ _
      (by simp [Batch.MakeTriangles, MakeTrianglesData, TrianglesData.copy]), ?_⟩
  simp [Batch.MakeTriangles, TrianglesData.copy, Batch.SetMatrix]

/-- C6: the clone/scratch equal-length invariant holds after
`Batch.MakeTriangles` and is preserved by `SetLen`, `Slice`, `Copy`,
`Update` and the merge. -/
theorem c6_scratch_lockstep (b : Batch) (t src : TrianglesData)
    (bt : batchTriangles) (n i j : Nat) :
    scratchLenInv (Batch.MakeTriangles b t) ∧
    (scratchLenInv bt → scratchLenInv (batchTriangles.SetLen bt n)) ∧
    (scratchLenInv bt → scratchLenInv (batchTriangles.Slice bt i j)) ∧
    (scratchLenInv bt → scratchLenInv (batchTriangles.Copy bt)) ∧
    (∀ bt2, batchTriangles.Update bt src = some bt2 →
      scratchLenInv bt → scratchLenInv bt2) ∧
    (∀ res, batchTriangles.draw bt b = some res →
      scratchLenInv bt → scratchLenInv res.2) := by
  refine ⟨?_, ?_, ?_, ?_, ?_, ?_⟩
  · simp [scratchLenInv, batchTriangles.Len, Batch.MakeTriangles,
      MakeTrianglesData, TrianglesData.copy]
  · intro h
    simp [scratchLenInv, batchTriangles.Len, batchTriangles.SetLen,
      TrianglesData.length_setLen]
  · intro h
    simp only [scratchLenInv, batchTriangles.Len] at h
    simp [scratchLenInv, batchTriangles.Len, batchTriangles.Slice,
      TrianglesData.slice, h]
  · intro h
    simpa [scratchLenInv, batchTriangles.Len, batchTriangles.Copy,
      TrianglesData.copy] using h
  · intro bt2 hup h
    unfold batchTriangles.Update TrianglesData.update at hup
    split at hup
    case isTrue hl =>
      simp only [Option.map_some', Option.some.injEq] at hup
      subst hup
      simp only [scratchLenInv, batchTriangles.Len] at h ⊢
      simp [List.length_zipWith, hl, h]
      omega
    case isFalse hl => simp at hup
  · intro res hres h
    simp only [scratchLenInv, batchTriangles.Len] at h
    rw [batchTriangles.draw_eq bt b h.symm] at hres
    obtain rfl : res = _ := by
      injection hres with hres2
      exact hres2.symm
    simp [scratchLenInv, batchTriangles.Len, h]

theorem c6_scratch_lockstep_witness :
    scratchLenInv (batchTriangles.SetLen
      (Batch.MakeTriangles sampleBatch [sampleVertex]) 2) ∧
    scratchLenInv (batchTriangles.Slice
      (Batch.MakeTriangles sampleBatch [sampleVertex]) 0 1) ∧
    scratchLenInv (batchTriangles.Copy
      (Batch.MakeTriangles sampleBatch [sampleVertex])) ∧
    scratchLenInv { tri := [sampleVertex2], tmp := [Vertex.zero], dst := 7 } ∧
    scratchLenInv sampleMergedProxy := by
  have h := c6_scratch_lockstep sampleBatch [sampleVertex] [sampleVertex2]
    (Batch.MakeTriangles sampleBatch [sampleVertex]) 2 0 1
  exact ⟨h.2.1 h.1, h.2.2.1 h.1, h.2.2.2.1 h.1,
    h.2.2.2.2.1 { tri := [sampleVertex2], tmp := [Vertex.zero], dst := 7 }
      (by decide) h.1,
    h.2.2.2.2.2 (sampleMergedBatch, sampleMergedProxy) sample_draw h.1⟩

/-- C7: `Batch.Clear` empties the container and marks it dirty, and a merge
performed after `Clear` gives exactly the result of the same merge on a
batch freshly built by `NewBatch` with the same picture, matrix and color
mask. -/
theorem c7_clear_resets (b : Batch) (t : TrianglesData) :
    List.length (Batch.Clear b).cont.triangles = 0 ∧
    (Batch.Clear b).cont.dirty = true ∧
    batchTriangles.draw (Batch.MakeTriangles (Batch.Clear b) t) (Batch.Clear b) =
      batchTriangles.draw
        (Batch.MakeTriangles
          (Batch.SetColorMask
            (Batch.SetMatrix (NewBatch [] b.cont.picture b.id) b.mat)
            (some b.col)) t)
        (Batch.SetColorMask
          (Batch.SetMatrix (NewBatch [] b.cont.picture b.id) b.mat)
          (some b.col)) := by
  refine ⟨?_, rfl, ?_⟩
  · simp [Batch.Clear, Drawer.Dirty, TrianglesData.length_setLen]
  · rw [batchTriangles.draw_eq _ _
      (by simp [Batch.MakeTriangles, MakeTrianglesData, TrianglesData.copy]),
      batchTriangles.draw_eq _ _
      (by simp [Batch.MakeTriangles, MakeTrianglesData, TrianglesData.copy])]
    simp [Batch.Clear, Drawer.Dirty, NewBatch, Batch.SetMatrix,
      Batch.SetColorMask, ToRGBA, Batch.MakeTriangles, TrianglesData.copy,
      TrianglesData.setLen]

/-- C8: `Batch.SetColorMask` with no color resets the mask to opaque white,
with a color sets it to that color's RGBA conversion, and in either case
changes nothing but the stored mask (container, matrix, picture and identity
are untouched, so previously merged geometry is unaffected). -/
theorem c8_set_color_mask (b : Batch) (c : RGBA) (oc : Option RGBA) :
    (Batch.SetColorMask b none).col = { r := 1, g := 1, b := 1, a := 1 } ∧
    (Batch.SetColorMask b (some c)).col = ToRGBA c ∧
    (Batch.SetColorMask b oc).cont = b.cont ∧
    (Batch.SetColorMask b oc).mat = b.mat ∧
    (Batch.SetColorMask b oc).id = b.id := by
  refine ⟨rfl, rfl, ?_, ?_, ?_⟩ <;> cases oc <;> rfl

/-- C9: `batchTriangles.Update` with a source of mismatched length fails
with no mutation observable (the panic happens before any write), and a
successful `Update` never touches the scratch buffer or the owner. -/
theorem c9_update_length_mismatch (bt : batchTriangles) (t : TrianglesData) :
    (List.length t ≠ batchTriangles.Len bt → batchTriangles.Update bt t = none) ∧
    (∀ bt2, batchTriangles.Update bt t = some bt2 →
      bt2.tmp = bt.tmp ∧ bt2.dst = bt.dst) := by
  constructor
  · intro h
    have h2 : ¬ (List.length bt.tri = List.length t) := by
      simp only [batchTriangles.Len] at h
      omega
    simp [batchTriangles.Update, TrianglesData.update, h2]
  · intro bt2 hup
    unfold batchTriangles.Update TrianglesData.update at hup
    split at hup
    case isTrue hl =>
      simp only [Option.map_some', Option.some.injEq] at hup
      subst hup
      exact ⟨rfl, rfl⟩
    case isFalse hl => simp at hup

theorem c9_update_length_mismatch_witness :
    batchTriangles.Update (Batch.MakeTriangles sampleBatch [sampleVertex]) []
      = none ∧
    (({ tri := [sampleVertex2], tmp := [Vertex.zero], dst := 7 } :
        batchTriangles).tmp =
      (Batch.MakeTriangles sampleBatch [sampleVertex]).tmp ∧
     ({ tri := [sampleVertex2], tmp := [Vertex.zero], dst := 7 } :
        batchTriangles).dst =
      (Batch.MakeTriangles sampleBatch [sampleVertex]).dst) :=
  ⟨(c9_update_length_mismatch
      (Batch.MakeTriangles sampleBatch [sampleVertex]) []).1 (by decide),
   (c9_update_length_mismatch
      (Batch.MakeTriangles sampleBatch [sampleVertex]) [sampleVertex2]).2
     { tri := [sampleVertex2], tmp := [Vertex.zero], dst := 7 } (by decide)⟩

/-- C10: handing the image proxy's `Draw` any `TargetTriangles` that is not
a `batchTriangles` panics on the type assertion, before the owning-batch
comparison is reached, so the mismatched-batch panic never fires for such
inputs. -/
theorem c10_draw_type_assertion (bp : batchPicture) (tag : Nat) (b : Batch) :
    batchPicture.Draw bp (TargetTriangles.other tag) b =
      Except.error DrawPanic.typeAssertion := rfl

/-!
Store-based rendering of the proxy operations.  Go buffers are heap objects
and Go slices alias their backing array; to state that no proxy operation
writes the caller's original buffer, the operations are re-expressed over an
explicit heap of buffers, with a buffer reference being an offset/length
view of a heap cell (the spec's own view model, §9).  Cell indices model
pointers; `Batch.MakeTriangles`'s `t.Copy()` is the allocation of a fresh
cell.
-/

/-- Modelled from the spec (§9): a buffer reference is an index-range view —
a backing cell plus an offset/length pair. -/
structure Ref where
  cell : Nat
  off : Nat
  len : Nat
deriving DecidableEq

/-- The heap of allocated geometry buffers; a cell index models a Go
pointer. -/
abbrev Store := List TrianglesData

/-- Dereference a cell (out-of-range reads give the empty buffer). -/
def Store.readCell (st : Store) (c : Nat) : TrianglesData := st.getD c []

/-- Replace a cell's contents. -/
def Store.writeCell (st : Store) (c : Nat) (td : TrianglesData) : Store :=
  st.set c td

/-- Allocate a fresh cell holding `td` and return a whole-cell view of it. -/
def Store.alloc (st : Store) (td : TrianglesData) : Store × Ref :=
  (st ++ [td], { cell := st.length, off := 0, len := td.length })

/-- The vertices seen through a view. -/
def Ref.read (st : Store) (r : Ref) : TrianglesData :=
  ((Store.readCell st r.cell).drop r.off).take r.len

/-- Writing vertices through a view: only the backing cell changes. -/
def Ref.write (st : Store) (r : Ref) (x : TrianglesData) : Store :=
  let cur := Store.readCell st r.cell
  Store.writeCell st r.cell
    (cur.take r.off ++ x ++ cur.drop (r.off + x.length))

/-- Resizing the buffer a view denotes, in place in its backing cell. -/
def Ref.resize (st : Store) (r : Ref) (n : Nat) : Store × Ref :=
  let cur := Store.readCell st r.cell
  (Store.writeCell st r.cell
    (cur.take r.off ++ TrianglesData.setLen (Ref.read st r) n),
   { r with len := n })

/-- A sub-view of a view, as produced by `Slice`: same backing cell. -/
def Ref.sub (r : Ref) (i j : Nat) : Ref :=
  { cell := r.cell, off := r.off + i, len := j - i }

/-- The batch as seen by the store model: its container is a heap cell. -/
structure BatchS where
  contCell : Nat
  dirty : Bool
  mat : Matrix
  col : RGBA
  id : Nat
deriving DecidableEq

/-- The geometry proxy in store form: views of the private clone and of the
scratch buffer, plus the owning batch. -/
structure batchTrianglesS where
  tri : Ref
  tmp : Ref
  dst : Nat
deriving DecidableEq

/-- `Batch.MakeTriangles` in store form: the caller's buffer is read through
its view and cloned into a fresh cell (`t.Copy()`), the scratch buffer is a
second fresh cell (`MakeTrianglesData(t.Len())`). -/
def BatchS.MakeTrianglesS (b : BatchS) (st : Store) (t : Ref) :
    Store × batchTrianglesS :=
  let p1 := Store.alloc st (TrianglesData.copy (Ref.read st t))
  let p2 := Store.alloc p1.1 (MakeTrianglesData (Ref.read st t).length)
  (p2.1, { tri := p1.2, tmp := p2.2, dst := b.id })

/-- `batchTriangles.SetLen` in store form: resize clone and scratch. -/
def batchTrianglesS.SetLenS (bt : batchTrianglesS) (st : Store) (n : Nat) :
    Store × batchTrianglesS :=
  let p1 := Ref.resize st bt.tri n
  let p2 := Ref.resize p1.1 bt.tmp n
  (p2.1, { bt with tri := p1.2, tmp := p2.2 })

/-- `batchTriangles.Slice` in store form: sub-views, no store change. -/
def batchTrianglesS.SliceS (bt : batchTrianglesS) (i j : Nat) :
    batchTrianglesS :=
  { bt with tri := Ref.sub bt.tri i j, tmp := Ref.sub bt.tmp i j }

/-- `batchTriangles.Update` in store form: writes through the private
clone's view only; a length mismatch panics (`none`) before any write. -/
def batchTrianglesS.UpdateS (bt : batchTrianglesS) (st : Store)
    (src : TrianglesData) : Option Store :=
  match TrianglesData.update (Ref.read st bt.tri) src with
  | none => none
  | some s => some (Ref.write st bt.tri s)

/-- `batchTriangles.Copy` in store form: clones into two fresh cells. -/
def batchTrianglesS.CopyS (bt : batchTrianglesS) (st : Store) :
    Store × batchTrianglesS :=
  let p1 := Store.alloc st (TrianglesData.copy (Ref.read st bt.tri))
  let p2 := Store.alloc p1.1 (TrianglesData.copy (Ref.read p1.1 bt.tmp))
  (p2.1, { tri := p1.2, tmp := p2.2, dst := bt.dst })

/-- The merge in store form: copy the clone into the scratch cell, transform
it there, grow the container cell, and write the clone and then the scratch
through the aliased tail view of the container. -/
def batchTrianglesS.drawS (bt : batchTrianglesS) (b : BatchS) (st : Store) :
    Option (Store × BatchS) :=
  match TrianglesData.update (Ref.read st bt.tmp) (Ref.read st bt.tri) with
  | none => none
  | some tmp1 =>
    let tmp2 := List.map (transformVertex b.mat b.col) tmp1
    let st1 := Ref.write st bt.tmp tmp2
    let k := (Ref.read st1 bt.tri).length
    let cont := Store.readCell st1 b.contCell
    let st2 := Store.writeCell st1 b.contCell
      (TrianglesData.setLen cont (cont.length + k))
    let newLen := (Store.readCell st2 b.contCell).length
    let added : Ref := { cell := b.contCell, off := newLen - k, len := k }
    match TrianglesData.update (Ref.read st2 added) (Ref.read st2 bt.tri) with
    | none => none
    | some s1 =>
      let st3 := Ref.write st2 added s1
      match TrianglesData.update (Ref.read st3 added)
          (Ref.read st3 bt.tmp) with
      | none => none
      | some s2 => some (Ref.write st3 added s2, { b with dirty := true })

/-- One caller-visible proxy operation. -/
inductive ProxyOp where
  | setLen (n : Nat)
  | update (src : TrianglesData)
  | slice (i j : Nat)
  | copy
  | draw
deriving DecidableEq

/-- Run one operation on the current (store, batch, proxy).  `slice` and
`copy` continue with the derived proxy; a panicking operation changes
nothing (the panic happens before any write). -/
def stepOp (s : Store × BatchS × batchTrianglesS) (op : ProxyOp) :
    Store × BatchS × batchTrianglesS :=
  match op with
  | .setLen n =>
    let p := batchTrianglesS.SetLenS s.2.2 s.1 n
    (p.1, s.2.1, p.2)
  | .update src =>
    match batchTrianglesS.UpdateS s.2.2 s.1 src with
    | none => s
    | some st2 => (st2, s.2.1, s.2.2)
  | .slice i j => (s.1, s.2.1, batchTrianglesS.SliceS s.2.2 i j)
  | .copy =>
    let p := batchTrianglesS.CopyS s.2.2 s.1
    (p.1, s.2.1, p.2)
  | .draw =>
    match batchTrianglesS.drawS s.2.2 s.2.1 s.1 with
    | none => s
    | some p => (p.1, p.2, s.2.2)

/-- Run a sequence of proxy operations. -/
def runOps (ops : List ProxyOp) (s : Store × BatchS × batchTrianglesS) :
    Store × BatchS × batchTrianglesS :=
  List.foldl stepOp s ops

/-- Frame invariant: the caller's cell `tc` is inside the heap and distinct
from the batch container cell and from both proxy cells. -/
def cellsAway (tc : Nat) (s : Store × BatchS × batchTrianglesS) : Prop :=
  tc < s.1.length ∧ s.2.1.contCell ≠ tc ∧ s.2.2.tri.cell ≠ tc ∧
    s.2.2.tmp.cell ≠ tc

theorem Store.readCell_writeCell_ne (st : Store) (c c2 : Nat)
    (td : TrianglesData) (h : c ≠ c2) :
    Store.readCell (Store.writeCell st c td) c2 = Store.readCell st c2 := by
  unfold Store.readCell Store.writeCell
  induction st generalizing c c2 with
  | nil => rfl
  | cons a l ih =>
    cases c with
    | zero =>
      cases c2 with
      | zero => exact absurd rfl h
      | succ m => rfl
    | succ n =>
      cases c2 with
      | zero => rfl
      | succ m => exact ih n m (fun hh => h (by omega))

theorem Store.length_writeCell (st : Store) (c : Nat) (td : TrianglesData) :
    (Store.writeCell st c td).length = st.length :=
  List.length_set st c td

theorem Store.readCell_append_lt (st tds : Store) (c : Nat)
    (h : c < st.length) :
    Store.readCell (st ++ tds) c = Store.readCell st c := by
  unfold Store.readCell
  induction st generalizing c with
  | nil => exact absurd h (by simp)
  | cons a l ih =>
    cases c with
    | zero => rfl
    | succ m => exact ih m (by simpa using h)

theorem Ref.readCell_write_ne (st : Store) (r : Ref) (x : TrianglesData)
    (tc : Nat) (h : r.cell ≠ tc) :
    Store.readCell (Ref.write st r x) tc = Store.readCell st tc :=
  Store.readCell_writeCell_ne st r.cell tc _ h

theorem Ref.length_write (st : Store) (r : Ref) (x : TrianglesData) :
    (Ref.write st r x).length = st.length :=
  Store.length_writeCell st r.cell _

theorem Ref.readCell_resize_ne (st : Store) (r : Ref) (n tc : Nat)
    (h : r.cell ≠ tc) :
    Store.readCell (Ref.resize st r n).1 tc = Store.readCell st tc :=
  Store.readCell_writeCell_ne st r.cell tc _ h

theorem Ref.length_resize (st : Store) (r : Ref) (n : Nat) :
    (Ref.resize st r n).1.length = st.length :=
  Store.length_writeCell st r.cell _

theorem Ref.cell_resize (st : Store) (r : Ref) (n : Nat) :
    (Ref.resize st r n).2.cell = r.cell := rfl

/-- A successful `UpdateS` writes only through the clone's view. -/
theorem batchTrianglesS.UpdateS_some_frame (bt : batchTrianglesS) (st : Store)
    (src : TrianglesData) (st2 : Store) (tc : Nat)
    (h : batchTrianglesS.UpdateS bt st src = some st2) (hc : bt.tri.cell ≠ tc) :
    Store.readCell st2 tc = Store.readCell st tc ∧ st2.length = st.length := by
  unfold batchTrianglesS.UpdateS at h
  split at h
  · exact Option.noConfusion h
  · simp only [Option.some.injEq] at h
    subst h
    exact ⟨Ref.readCell_write_ne st bt.tri _ tc hc, Ref.length_write st bt.tri _⟩

/-- A successful merge writes only the scratch cell and the container
cell. -/
theorem batchTrianglesS.drawS_some_frame (bt : batchTrianglesS) (b : BatchS)
    (st : Store) (p : Store × BatchS) (tc : Nat)
    (h : batchTrianglesS.drawS bt b st = some p)
    (hcont : b.contCell ≠ tc) (htmp : bt.tmp.cell ≠ tc) :
    Store.readCell p.1 tc = Store.readCell st tc ∧ p.1.length = st.length ∧
      p.2.contCell = b.contCell := by
  unfold batchTrianglesS.drawS at h
  split at h
  · exact Option.noConfusion h
  · simp only [] at h
    split at h
    · exact Option.noConfusion h
    · split at h
      · exact Option.noConfusion h
      · simp only [Option.some.injEq] at h
        subst h
        refine ⟨?_, ?_, rfl⟩
        · rw [Ref.readCell_write_ne _ _ _ _ hcont,
            Ref.readCell_write_ne _ _ _ _ hcont,
            Store.readCell_writeCell_ne _ _ _ _ hcont,
            Ref.readCell_write_ne _ _ _ _ htmp]
        · simp [Ref.length_write, Store.length_writeCell]

/-- One step writes only the proxy's own cells and the container cell, so
the caller's cell keeps its contents and the frame invariant survives. -/
theorem stepOp_frame (tc : Nat) (s : Store × BatchS × batchTrianglesS)
    (op : ProxyOp) (h : cellsAway tc s) :
    cellsAway tc (stepOp s op) ∧
      Store.readCell (stepOp s op).1 tc = Store.readCell s.1 tc := by
  obtain ⟨h1, h2, h3, h4⟩ := h
  cases op with
  | setLen n =>
    refine ⟨⟨?_, h2, ?_, ?_⟩, ?_⟩
    · simpa [stepOp, batchTrianglesS.SetLenS, Ref.length_resize] using h1
    · simpa [stepOp, batchTrianglesS.SetLenS, Ref.cell_resize] using h3
    · simpa [stepOp, batchTrianglesS.SetLenS, Ref.cell_resize] using h4
    · show Store.readCell (Ref.resize (Ref.resize s.1 s.2.2.tri n).1
        s.2.2.tmp n).1 tc = Store.readCell s.1 tc
      rw [Ref.readCell_resize_ne _ _ _ _ h4, Ref.readCell_resize_ne _ _ _ _ h3]
  | update src =>
    simp only [stepOp]
    split
    · exact ⟨⟨h1, h2, h3, h4⟩, rfl⟩
    next st2 hu =>
      have hf := batchTrianglesS.UpdateS_some_frame s.2.2 s.1 src st2 tc hu h3
      refine ⟨⟨?_, h2, h3, h4⟩, hf.1⟩
      simpa [hf.2] using h1
  | slice i j =>
    exact ⟨⟨h1, h2, h3, h4⟩, rfl⟩
  | copy =>
    refine ⟨⟨?_, h2, ?_, ?_⟩, ?_⟩
    · simp [stepOp, batchTrianglesS.CopyS, Store.alloc]
      omega
    · show s.1.length ≠ tc
      omega
    · show (s.1 ++ [TrianglesData.copy (Ref.read s.1 s.2.2.tri)]).length ≠ tc
      simp
      omega
    · show Store.readCell ((s.1 ++ [TrianglesData.copy (Ref.read s.1 s.2.2.tri)])
        ++ [TrianglesData.copy (Ref.read (s.1 ++
          [TrianglesData.copy (Ref.read s.1 s.2.2.tri)]) s.2.2.tmp)]) tc
        = Store.readCell s.1 tc
      rw [Store.readCell_append_lt _ _ _ (by simp; omega),
        Store.readCell_append_lt _ _ _ h1]
  | draw =>
    simp only [stepOp]
    split
    · exact ⟨⟨h1, h2, h3, h4⟩, rfl⟩
    next p hd =>
      have hf := batchTrianglesS.drawS_some_frame s.2.2 s.2.1 s.1 p tc hd h2 h4
      refine ⟨⟨?_, ?_, h3, h4⟩, hf.1⟩
      · simpa [hf.2.1] using h1
      · show p.2.contCell ≠ tc
        rw [hf.2.2]
        exact h2

/-- The frame property extends to any sequence of operations. -/
theorem runOps_frame (tc : Nat) (ops : List ProxyOp)
    (s : Store × BatchS × batchTrianglesS) (h : cellsAway tc s) :
    cellsAway tc (runOps ops s) ∧
      Store.readCell (runOps ops s).1 tc = Store.readCell s.1 tc := by
  induction ops generalizing s with
  | nil => exact ⟨h, rfl⟩
  | cons op rest ih =>
    have hstep := stepOp_frame tc s op h
    have hrest := ih (stepOp s op) hstep.1
    exact ⟨hrest.1, hrest.2.trans hstep.2⟩

/-- C5: the proxy owns a private copy.  Starting from any heap, batch whose
container is not the caller's buffer, and caller buffer cell `tc`, making a
proxy from the caller's buffer and then running any sequence of proxy
operations (`SetLen`, `Slice`, `Update`, `Copy`, merges) leaves the caller's
buffer exactly as it was at proxy-creation time. -/
theorem c5_caller_buffer_immutable (st : Store) (b : BatchS) (tc : Nat)
    (ops : List ProxyOp) (h1 : tc < st.length) (h2 : b.contCell ≠ tc) :
    Store.readCell
      (runOps ops
        ((BatchS.MakeTrianglesS b st
            { cell := tc, off := 0, len := (Store.readCell st tc).length }).1,
         b,
         (BatchS.MakeTrianglesS b st
            { cell := tc, off := 0, len := (Store.readCell st tc).length }).2)).1
      tc = Store.readCell st tc := by
  have hini : cellsAway tc
      ((BatchS.MakeTrianglesS b st
          { cell := tc, off := 0, len := (Store.readCell st tc).length }).1,
       b,
       (BatchS.MakeTrianglesS b st
          { cell := tc, off := 0, len := (Store.readCell st tc).length }).2) := by
    refine ⟨?_, h2, ?_, ?_⟩
    · simp [BatchS.MakeTrianglesS, Store.alloc]
      omega
    · show st.length ≠ tc
      omega
    · show (st ++ [TrianglesData.copy (Ref.read st
        { cell := tc, off := 0, len := (Store.readCell st tc).length })]).length ≠ tc
      simp
      omega
  have hrun := runOps_frame tc ops _ hini
  refine hrun.2.trans ?_
  show Store.readCell ((st ++ _) ++ _) tc = Store.readCell st tc
  rw [Store.readCell_append_lt _ _ _ (by simp; omega),
    Store.readCell_append_lt _ _ _ h1]

theorem c5_caller_buffer_immutable_witness :
    Store.readCell
      (runOps [ProxyOp.draw, ProxyOp.setLen 2,
               ProxyOp.update [Vertex.zero, Vertex.zero],
               ProxyOp.slice 0 1, ProxyOp.copy]
        ((BatchS.MakeTrianglesS
            { contCell := 1, dirty := false, mat := IM,
              col := { r := 1, g := 1, b := 1, a := 1 }, id := 7 }
            [[sampleVertex]]
            { cell := 0, off := 0,
              len := (Store.readCell [[sampleVertex]] 0).length }).1,
         { contCell := 1, dirty := false, mat := IM,
           col := { r := 1, g := 1, b := 1, a := 1 }, id := 7 },
         (BatchS.MakeTrianglesS
            { contCell := 1, dirty := false, mat := IM,
              col := { r := 1, g := 1, b := 1, a := 1 }, id := 7 }
            [[sampleVertex]]
            { cell := 0, off := 0,
              len := (Store.readCell [[sampleVertex]] 0).length }).2)).1 0
      = Store.readCell [[sampleVertex]] 0 :=
  c5_caller_buffer_immutable [[sampleVertex]]
    { contCell := 1, dirty := false, mat := IM,
      col := { r := 1, g := 1, b := 1, a := 1 }, id := 7 }
    0
    [ProxyOp.draw, ProxyOp.setLen 2,
     ProxyOp.update [Vertex.zero, Vertex.zero],
     ProxyOp.slice 0 1, ProxyOp.copy]
    (by decide) (by decide)

end Pixel
